import Mathlib

/-!
Verification development for the mmap-object storage engine
(src/mmap-object.cc).  The engine is shallowly embedded: the sharded
property hash, the growable arena, the property setter/getter/deleter/
enumerator callbacks, the grow routine, the close worker's action
sequence and the lock acquisitions of the setter are translated into
executable Lean definitions, and the specification's claims are settled
as theorems about those definitions.

Modelling conventions:
- IEEE-754 double payloads are never computed on by the engine (they are
  stored and returned unchanged), so they are carried by an Int stand-in
  with decidable equality.
- The arena allocator is modelled by a pair size/used; an allocation of
  n bytes succeeds when used + n fits below size.  The allocation demand
  of one setter iteration is modelled as data_length (sizeof(Cell) plus
  payload bytes), the very quantity PropSetter uses for its grow
  decision; the setter's transient key-string and node overhead is not
  tracked separately (those allocations sit inside the catch-and-grow
  loop, so omitting them only coarsens when exhaustion strikes).  The
  deleter's key-string construction, by contrast, sits in no try block,
  so it is modelled: it demands the key's bytes from the arena exactly
  when they exceed the string's inline (small-string) buffer, and its
  failure surfaces as an uncaught bad_alloc.
- OS-level calls (file truncation, mapping, flushing) are assumed to
  succeed; flush/unmap ordering is modelled as an explicit event trace
  where a claim is about it.
- boost::hash is an arbitrary function parameter hash : String → Nat;
  all shard-placement results hold for every such function.
-/

namespace MmapObject

/-- The tagged value type stored by the hash (class Cell, with
STRING_TYPE and NUMBER_TYPE tags). -/
inductive Cell
  | stringValue (s : String)
  | numberValue (n : Int)
deriving DecidableEq, Repr

/-- A JavaScript value as seen by PropSetter: a string, a number, or
anything else (rejected with a validation error). -/
inductive JSValue
  | str (s : String)
  | num (n : Int)
  | other
deriving DecidableEq, Repr

/-- The errors the embedded engine can raise.  All but the last
correspond to Nan::ThrowError sites in src/mmap-object.cc; the last is
the bip::bad_alloc of PropDeleter's unprotected key construction, which
escapes the callback uncaught. -/
inductive EngineError
  | readOnlyWrite
  | closedWrite
  | badValueType
  | closedRead
  | readOnlyDelete
  | closedDelete
  | growModeError
  | capacityError
  | uncaughtBadAlloc
deriving DecidableEq, Repr

/-- Stand-in for sizeof(Cell): a tag byte plus the padded union of the
string header and the double.  Its exact value is immaterial to every
claim. -/
def cellSize : Nat := 16

/-- data_length as computed at the top of PropSetter: sizeof(Cell) plus
the UTF-8 byte length of a string value, or sizeof(double) for a number;
none marks the value kinds PropSetter rejects. -/
def dataLength : JSValue → Option Nat
  | .str t => some (cellSize + t.utf8ByteSize)
  | .num _ => some (cellSize + 8)
  | .other => none

/-- The Cell constructed by PropSetter for a storable value (the .other
branch is unreachable: the setter rejects such values first). -/
def toCell : JSValue → Cell
  | .str t => .stringValue t
  | .num n => .numberValue n
  | .other => .numberValue 0

/-- One shard: a boost::unordered_map from key to Cell, modelled as an
association list whose key multiset the operations keep duplicate-free. -/
abbrev Shard := List (String × Cell)

/-- The property hash: SHARDS (= 64) independent shards. -/
abbrev Table := Fin 64 → Shard

/-- The HASH macro: shard index of a key is hash(key) % SHARDS. -/
def shardIndex (hash : String → Nat) (k : String) : Fin 64 :=
  ⟨hash k % 64, Nat.mod_lt _ (by decide)⟩

/-- Membership test on one shard. -/
def shardContains (k : String) (sh : Shard) : Bool :=
  sh.any (fun p => p.1 == k)

/-- property_map->find on one shard. -/
def shardFind (k : String) (sh : Shard) : Option Cell :=
  (sh.find? (fun p => p.1 == k)).map Prod.snd

/-- property_map->erase on one shard: drop the entry with this key. -/
def shardErase (k : String) (sh : Shard) : Shard :=
  sh.filter (fun p => p.1 != k)

/-- The setter's net effect on one shard: insert returns false when the
key exists, in which case the old entry is erased and the new pair
inserted; otherwise the pair is inserted directly. -/
def shardSet (k : String) (c : Cell) (sh : Shard) : Shard :=
  if shardContains k sh then shardErase k sh ++ [(k, c)] else sh ++ [(k, c)]

/-- The freshly constructed 64-shard table. -/
def emptyTable : Table := fun _ => []

/-- Set a key across the table: only the key's shard is touched. -/
def tableSet (hash : String → Nat) (t : Table) (k : String) (c : Cell) : Table :=
  Function.update t (shardIndex hash k) (shardSet k c (t (shardIndex hash k)))

/-- Erase a key across the table: only the key's shard is touched. -/
def tableErase (hash : String → Nat) (t : Table) (k : String) : Table :=
  Function.update t (shardIndex hash k) (shardErase k (t (shardIndex hash k)))

/-- The arena: the managed mapped file's size, the bytes already
allocated in it, and the property hash living inside it. -/
structure Arena where
  size : Nat
  used : Nat
  table : Table

/-- One process's open handle (class SharedMap): mode flags, closed
flag, explicit-global-lock flag, the max_file_size ceiling and the
arena. -/
structure Session where
  readonly : Bool
  writeonly : Bool
  closed : Bool
  inGlobalLock : Bool
  maxFileSize : Nat
  arena : Arena

/-- SharedMap::grow, in source order: refuse unless write-only; round
the request up to 100 bytes; refuse with the capacity error when the new
file size would pass max_file_size (before any mutation); otherwise
flush, unmap, extend and remap, i.e. adopt the new size and clear the
closed flag. -/
def grow (s : Session) (req : Nat) : Session × Option EngineError :=
  if s.writeonly = false then (s, some .growModeError)
  else if s.maxFileSize < s.arena.size + (if req < 100 then 100 else req) then
    (s, some .capacityError)
  else
    ({ s with
        closed := false
        arena := { s.arena with
          size := s.arena.size + (if req < 100 then 100 else req) } }, none)

/-- The grow request computed in PropSetter's exhaustion handlers:
twice the current arena size, or the failed data_length when that is
larger. -/
def setterGrowSize (cur need : Nat) : Nat :=
  if cur * 2 < need then need else cur * 2

/-- One attempt of the setter's try-block: allocate need bytes and store
the cell under the key; none models bip::bad_alloc from the arena
allocator. -/
def setIter (hash : String → Nat) (s : Session) (k : String) (v : JSValue)
    (need : Nat) : Option Session :=
  if s.arena.used + need ≤ s.arena.size then
    some { s with arena := { s.arena with
             used := s.arena.used + need,
             table := tableSet hash s.arena.table k (toCell v) } }
  else none

/-- PropSetter's while(true) retry loop: on bad_alloc compute the grow
request and call grow; a grow failure is returned to the caller,
otherwise the same key and value are retried from scratch.  The fuel
argument bounds the number of iterations only to make the definition
structural; none means the fuel ran out. -/
def setLoop (hash : String → Nat) :
    Nat → Session → String → JSValue → Nat → Option (Session × Option EngineError)
  | 0, _, _, _, _ => none
  | fuel + 1, s, k, v, need =>
    match setIter hash s k v need with
    | some s1 => some (s1, none)
    | none =>
      match grow s (setterGrowSize s.arena.size need) with
      | (s1, some e) => some (s1, some e)
      | (s1, none) => setLoop hash fuel s1 k v need

/-- SharedMap::PropSetter: reject read-only and closed handles and
non-string non-number values, then run the allocate-store-grow-retry
loop. -/
def propSetter (hash : String → Nat) (fuel : Nat) (s : Session) (k : String)
    (v : JSValue) : Option (Session × Option EngineError) :=
  if s.readonly then some (s, some .readOnlyWrite)
  else if s.closed then some (s, some .closedWrite)
  else
    match dataLength v with
    | none => some (s, some .badValueType)
    | some need => setLoop hash fuel s k v need

/-- SharedMap::PropGetter: the key "prototype" is answered as absent
before anything else (v8 continues its own lookup); a closed handle
fails; otherwise the key's shard is searched. -/
def propGetter (hash : String → Nat) (s : Session) (k : String) :
    Except EngineError (Option Cell) :=
  if k == "prototype" then .ok none
  else if s.closed then .error .closedRead
  else .ok (shardFind k (s.arena.table (shardIndex hash k)))

/-- Inline (small-string) capacity of the arena string type: a key
whose C string fits in the inline buffer is constructed without touching
the arena allocator at all.  The exact boost value is platform
dependent; any value of at least ten bytes keeps the fixed key
prototype inline, and the claims do not depend on the precise cutoff. -/
def ssoCapacity : Nat := 22

/-- Arena bytes demanded by constructing the deleter's shared_string
key from the arena's char allocator: nothing when the key's bytes (with
the terminating NUL) fit the inline buffer, otherwise the key's bytes
themselves. -/
def keyAllocDemand (k : String) : Nat :=
  if k.utf8ByteSize + 1 ≤ ssoCapacity then 0 else k.utf8ByteSize + 1

/-- SharedMap::PropDeleter: reject read-only and closed handles, then
construct the key as a shared_string with the arena allocator — an
allocation that, unlike the setter's, sits in no try block, so its
bad_alloc escapes the callback uncaught — and erase the key from its
shard; erasing an absent key changes no shard.  The constructed key is
never freed, so a successful construction keeps its bytes allocated. -/
def propDeleter (hash : String → Nat) (s : Session) (k : String) :
    Session × Option EngineError :=
  if s.readonly then (s, some .readOnlyDelete)
  else if s.closed then (s, some .closedDelete)
  else if 0 < keyAllocDemand k ∧
      s.arena.size < s.arena.used + keyAllocDemand k then
    (s, some .uncaughtBadAlloc)
  else ({ s with arena := { s.arena with
            used := s.arena.used + keyAllocDemand k
            table := tableErase hash s.arena.table k } }, none)

/-- The enumerator's key walk: all 64 shards in shard-index order, each
shard in its iteration order. -/
def enumerateTable (t : Table) : List String :=
  (List.finRange 64).flatMap fun i => (t i).map Prod.fst

/-- SharedMap::PropEnumerator: a closed handle is answered with an empty
array (not an error); otherwise every shard is walked in index order. -/
def propEnumerator (s : Session) : Except EngineError (List String) :=
  if s.closed then .ok []
  else .ok (enumerateTable s.arena.table)

/-- The observable actions of CloseWorker::Execute, in program order. -/
inductive CloseEvent
  | shrinkToFit
  | flush
  | unmap
  | unlockExclusive
  | unlockSharable
  | unmapMutexRegion
deriving DecidableEq, Repr

/-- CloseWorker::Execute as an event trace: shrink_to_fit only for a
write-only handle, then flush, then unmap, then release the
write-exclusivity mutex the way it was taken, then drop the mutex
region. -/
def closeWorkerTrace (writeonly : Bool) : List CloseEvent :=
  (if writeonly then [.shrinkToFit] else []) ++ [.flush, .unmap] ++
    (if writeonly then [.unlockExclusive] else [.unlockSharable]) ++
    [.unmapMutexRegion]

/-- How a mutex is held: not at all, sharable, or scoped (exclusive). -/
inductive LockMode
  | idle
  | shared
  | exclusive
deriving DecidableEq, Repr

/-- The locks one process holds: the global mutex and the 64 per-shard
rw mutexes. -/
structure HeldLocks where
  global : LockMode
  shard : Fin 64 → LockMode

/-- A single lock acquisition. -/
inductive LockOp
  | shardExclusive (i : Fin 64)
  | globalShared
  | globalExclusive

/-- Effect of one acquisition on the held-lock state. -/
def applyLockOp (h : HeldLocks) : LockOp → HeldLocks
  | .shardExclusive i => { h with shard := Function.update h.shard i .exclusive }
  | .globalShared => { h with global := .shared }
  | .globalExclusive => { h with global := .exclusive }

/-- Run a sequence of acquisitions. -/
def heldAfter (h : HeldLocks) (ops : List LockOp) : HeldLocks :=
  ops.foldl applyLockOp h

/-- Holding nothing. -/
def noLocks : HeldLocks := { global := .idle, shard := fun _ => .idle }

/-- The acquisitions PropSetter performs before entering its retry loop:
outside an explicit exclusive section it takes a scoped (exclusive) lock
on the key's shard mutex and then a sharable lock on the global mutex;
inside such a section it takes nothing. -/
def setterLockOps (inGlobalLock : Bool) (h : Fin 64) : List LockOp :=
  if inGlobalLock then [] else [.shardExclusive h, .globalShared]

/-- What the session already holds when PropSetter starts: writeLock
leaves the global mutex scoped (exclusive) and sets inGlobalLock. -/
def sessionBaseLocks (inGlobalLock : Bool) : HeldLocks :=
  if inGlobalLock then { noLocks with global := .exclusive } else noLocks

/-- The locks held while SharedMap::grow runs from the setter's
exhaustion handler. -/
def locksDuringGrow (inGlobalLock : Bool) (h : Fin 64) : HeldLocks :=
  heldAfter (sessionBaseLocks inGlobalLock) (setterLockOps inGlobalLock h)

/-- Tables reachable from a fresh arena through the engine's mutators. -/
inductive Reachable (hash : String → Nat) : Table → Prop
  | empty : Reachable hash emptyTable
  | set {t : Table} {k : String} {c : Cell} :
      Reachable hash t → Reachable hash (tableSet hash t k c)
  | erase {t : Table} {k : String} :
      Reachable hash t → Reachable hash (tableErase hash t k)

/-- Modelled from the spec: the growth-size formula of section 4.3,
max(current_arena_size, failed_request_size) * 2, or the failed request
size itself if that product is smaller. -/
def specGrowSize (cur need : Nat) : Nat :=
  if max cur need * 2 < need then need else max cur need * 2

/-- Modelled from the spec: a Session is write-capable when its mode is
ReadWrite or WriteOnly, i.e. not read-only.  The write-only flag is a
parameter only to mirror the pair of mode flags; it does not matter. -/
def specWriteCapable (readonly : Bool) (_writeonly : Bool) : Bool :=
  !readonly

/-! Concrete instances used by the witnesses and counterexamples. -/

/-- A concrete hash function placing every key in shard 0. -/
def h0 : String → Nat := fun _ => 0

/-- An open read-write session whose arena is exhausted (used = size)
and whose ceiling leaves room for exactly one growth step. -/
def sOpenRW : Session :=
  { readonly := false, writeonly := false, closed := false,
    inGlobalLock := false, maxFileSize := 300,
    arena := { size := 200, used := 200, table := emptyTable } }

/-- The write-only variant of the exhausted session: growth to 600
bytes would pass the 300-byte ceiling. -/
def sOpenWO : Session :=
  { readonly := false, writeonly := true, closed := false,
    inGlobalLock := false, maxFileSize := 300,
    arena := { size := 200, used := 200, table := emptyTable } }

/-- An exhausted write-only session with a roomy ceiling, so that one
growth step succeeds. -/
def sBigWO : Session :=
  { readonly := false, writeonly := true, closed := false,
    inGlobalLock := false, maxFileSize := 10000,
    arena := { size := 200, used := 200, table := emptyTable } }

/-- The state sBigWO reaches after its first growth step: the grow
request is setterGrowSize 200 24 = 400, so the file reaches 600 bytes. -/
def sBigWOGrown : Session :=
  { sBigWO with
    closed := false
    arena := { sBigWO.arena with size := 600 } }

/-- A session that has been closed. -/
def sClosed : Session :=
  { readonly := false, writeonly := false, closed := true,
    inGlobalLock := false, maxFileSize := 1000,
    arena := { size := 500, used := 0, table := emptyTable } }

/-- An open read-write session with ample free space. -/
def sRoomy : Session :=
  { readonly := false, writeonly := false, closed := false,
    inGlobalLock := false, maxFileSize := 100000,
    arena := { size := 10000, used := 0, table := emptyTable } }

/-- A 30-byte key: too long for the string's inline buffer, so the
deleter must construct it from the arena allocator. -/
def longKey : String := "kkkkkkkkkkkkkkkkkkkkkkkkkkkkkk"

/-- The state reached from sRoomy by storing the string value x under
the key prototype. -/
def sProto : Session :=
  match propSetter h0 1 sRoomy "prototype" (JSValue.str "x") with
  | some (s, _) => s
  | none => sRoomy

/-- A roomy open session whose table already stores the key a as a
number, for the overwrite-with-a-string round trip. -/
def sNum : Session :=
  { sRoomy with arena := { sRoomy.arena with
      table := tableSet h0 emptyTable "a" (Cell.numberValue 3) } }

/-- The state reached from sNum by overwriting the key a with the
string value x. -/
def sNumAfter : Session :=
  match propSetter h0 1 sNum "a" (JSValue.str "x") with
  | some (s, _) => s
  | none => sNum

/-- A two-key table built by the engine's own mutators. -/
def t1 : Table :=
  tableSet h0 (tableSet h0 emptyTable "a" (Cell.numberValue 1)) "b"
    (Cell.stringValue "y")

/-- Placement invariant: every entry sits in the shard its key hashes
to. -/
def WellPlaced (hash : String → Nat) (t : Table) : Prop :=
  ∀ (i : Fin 64) (p : String × Cell), p ∈ t i → shardIndex hash p.1 = i

/-- Every shard's key list is duplicate-free. -/
def NodupKeys (t : Table) : Prop :=
  ∀ i : Fin 64, ((t i).map Prod.fst).Nodup

/-! Helper lemmas shared by several claims. -/

/-- Case analysis of grow for a write-only session: either the rounded
request passes the ceiling and nothing changes, or the file adopts the
enlarged size. -/
theorem grow_spec (s : Session) (r : Nat) (hwo : s.writeonly = true) :
    (s.maxFileSize < s.arena.size + (if r < 100 then 100 else r) ∧
      grow s r = (s, some EngineError.capacityError)) ∨
    (s.arena.size + (if r < 100 then 100 else r) ≤ s.maxFileSize ∧
      grow s r = ({ s with
        closed := false
        arena := { s.arena with
          size := s.arena.size + (if r < 100 then 100 else r) } }, none)) := by
  unfold grow
  rw [hwo]
  by_cases hc : s.maxFileSize < s.arena.size + (if r < 100 then 100 else r)
  · exact Or.inl ⟨hc, by rw [if_neg (by simp), if_pos hc]⟩
  · exact Or.inr ⟨by omega, by rw [if_neg (by simp), if_neg hc]⟩

/-- A failing grow on a write-only session can only be the capacity
error. -/
theorem grow_err_of_writeonly {s : Session} {r : Nat} {e : EngineError}
    (hwo : s.writeonly = true) (h : (grow s r).2 = some e) :
    e = EngineError.capacityError := by
  rcases grow_spec s r hwo with ⟨_, heq⟩ | ⟨_, heq⟩ <;> rw [heq] at h
  · exact (Option.some_inj.mp h).symm
  · simp at h

/-- A successful grow changes only the file size and the closed flag:
flags, ceiling, allocation level and the whole table are preserved, the
size increases by at least 100 bytes and stays below the ceiling. -/
theorem grow_ok_fields {s s1 : Session} {r : Nat}
    (hwo : s.writeonly = true) (h : grow s r = (s1, none)) :
    s1.readonly = s.readonly ∧ s1.writeonly = true ∧ s1.closed = false ∧
    s1.inGlobalLock = s.inGlobalLock ∧ s1.maxFileSize = s.maxFileSize ∧
    s1.arena.used = s.arena.used ∧ s1.arena.table = s.arena.table ∧
    s.arena.size + 100 ≤ s1.arena.size ∧ s1.arena.size ≤ s.maxFileSize := by
  rcases grow_spec s r hwo with ⟨_, heq⟩ | ⟨hc, heq⟩ <;> rw [heq] at h
  · simp at h
  · have hs : s1 = { s with
        closed := false
        arena := { s.arena with
          size := s.arena.size + (if r < 100 then 100 else r) } } := by
      have := congrArg Prod.fst h
      exact this.symm
    subst hs
    refine ⟨rfl, hwo, rfl, rfl, rfl, rfl, rfl, ?_, hc⟩
    show s.arena.size + 100 ≤ s.arena.size + (if r < 100 then 100 else r)
    split <;> omega

/-- Any error escaping the setter retry loop of a write-only session is
the capacity error: exhaustion itself is converted into grow-then-retry
and never surfaces. -/
theorem setLoop_err (hash : String → Nat) :
    ∀ (fuel : Nat) (s : Session) (k : String) (v : JSValue) (need : Nat)
      (s1 : Session) (e : EngineError), s.writeonly = true →
      setLoop hash fuel s k v need = some (s1, some e) →
      e = EngineError.capacityError := by
  intro fuel
  induction fuel with
  | zero =>
    intro s k v need s1 e _ h
    simp [setLoop] at h
  | succ n ih =>
    intro s k v need s1 e hwo h
    rw [setLoop] at h
    cases hi : setIter hash s k v need with
    | some s2 =>
      rw [hi] at h
      simp at h
    | none =>
      rw [hi] at h
      rcases hg : grow s (setterGrowSize s.arena.size need) with ⟨s2, oe⟩
      rw [hg] at h
      cases oe with
      | some e2 =>
        simp at h
        have hcap := grow_err_of_writeonly hwo (by rw [hg])
        rw [← h.2]
        exact hcap
      | none =>
        exact ih s2 k v need s1 e (grow_ok_fields hwo hg).2.1 h

/-- The setter retry loop of a write-only session terminates: each
successful growth enlarges the file by at least 100 bytes while staying
below the ceiling, so enough fuel rules out the fuel-exhaustion result. -/
theorem setLoop_total (hash : String → Nat) :
    ∀ (fuel : Nat) (s : Session) (k : String) (v : JSValue) (need : Nat),
      s.writeonly = true →
      1 + (s.maxFileSize + 1 - s.arena.size) ≤ fuel →
      setLoop hash fuel s k v need ≠ none := by
  intro fuel
  induction fuel with
  | zero =>
    intro s k v need _ hf
    exact absurd hf (by omega)
  | succ n ih =>
    intro s k v need hwo hf
    rw [setLoop]
    cases hi : setIter hash s k v need with
    | some s2 => simp
    | none =>
      rcases hg : grow s (setterGrowSize s.arena.size need) with ⟨s2, oe⟩
      cases oe with
      | some e => simp
      | none =>
        obtain ⟨-, hwo2, -, -, hmax, -, -, hsz, hle⟩ := grow_ok_fields hwo hg
        have hf2 : 1 + (s2.maxFileSize + 1 - s2.arena.size) ≤ n := by
          rw [hmax]; omega
        exact ih s2 k v need hwo2 hf2

/-- Unpacking shard non-membership. -/
theorem shardContains_eq_false_iff {k : String} {sh : Shard} :
    shardContains k sh = false ↔ ∀ p ∈ sh, p.1 ≠ k := by
  simp [shardContains, List.any_eq_false]

/-- Erasing a key removes every entry carrying it. -/
theorem find?_shardErase (k : String) (sh : Shard) :
    (shardErase k sh).find? (fun p => p.1 == k) = none := by
  rw [List.find?_eq_none]
  intro p hp
  have hne := (List.mem_filter.mp hp).2
  simp at hne ⊢
  exact hne

/-- After a set, looking the key up finds exactly the new cell. -/
theorem shardFind_shardSet (k : String) (c : Cell) (sh : Shard) :
    shardFind k (shardSet k c sh) = some c := by
  unfold shardSet
  split
  · unfold shardFind
    rw [List.find?_append, find?_shardErase]
    simp
  · next hcon =>
    rw [Bool.not_eq_true] at hcon
    unfold shardFind
    rw [List.find?_append]
    have hnone : sh.find? (fun p => p.1 == k) = none := by
      rw [List.find?_eq_none]
      intro p hp
      have := shardContains_eq_false_iff.mp hcon p hp
      simp [this]
    rw [hnone]
    simp

/-- After a set, the shard reports the key as present. -/
theorem shardContains_shardSet (k : String) (c : Cell) (sh : Shard) :
    shardContains k (shardSet k c sh) = true := by
  unfold shardSet shardContains
  split <;> simp

/-- Erasing an absent key across the table changes nothing. -/
theorem tableErase_absent (hash : String → Nat) (t : Table) (k : String)
    (habs : shardContains k (t (shardIndex hash k)) = false) :
    tableErase hash t k = t := by
  rw [tableErase.eq_def]
  have hsh : shardErase k (t (shardIndex hash k)) = t (shardIndex hash k) := by
    rw [shardErase, List.filter_eq_self]
    intro p hp
    have := shardContains_eq_false_iff.mp habs p hp
    simp [this]
  rw [hsh, Function.update_eq_self]

/-- On an open writable session with room for the transient key, the
deleter succeeds, charging the key construction to the arena and
erasing the key's shard entry. -/
theorem propDeleter_ok (hash : String → Nat) (s : Session) (k : String)
    (hro : s.readonly = false) (hcl : s.closed = false)
    (hfit : s.arena.used + keyAllocDemand k ≤ s.arena.size) :
    propDeleter hash s k =
      ({ s with arena := { s.arena with
          used := s.arena.used + keyAllocDemand k
          table := tableErase hash s.arena.table k } }, none) := by
  unfold propDeleter
  rw [if_neg (by simp [hro]), if_neg (by simp [hcl]), if_neg (by omega)]

/-- A grow that returns successfully must have been called on a
write-only session. -/
theorem grow_ok_writeonly {s s1 : Session} {r : Nat}
    (h : grow s r = (s1, none)) : s.writeonly = true := by
  by_cases hwo : s.writeonly = true
  · exact hwo
  · rw [Bool.not_eq_true] at hwo
    unfold grow at h
    rw [if_pos hwo] at h
    simp at h

/-- A successful run of the setter retry loop leaves an open session
whose table is exactly the original table with the new binding; growth
steps in between change neither the table nor the final binding. -/
theorem setLoop_ok (hash : String → Nat) :
    ∀ (fuel : Nat) (s : Session) (k : String) (v : JSValue) (need : Nat)
      (s1 : Session), s.closed = false →
      setLoop hash fuel s k v need = some (s1, none) →
      s1.closed = false ∧
      s1.arena.table = tableSet hash s.arena.table k (toCell v) := by
  intro fuel
  induction fuel with
  | zero =>
    intro s k v need s1 _ h
    simp [setLoop] at h
  | succ n ih =>
    intro s k v need s1 hcl h
    rw [setLoop] at h
    cases hi : setIter hash s k v need with
    | some s2 =>
      rw [hi] at h
      have hs : s2 = s1 := by simpa using h
      subst hs
      unfold setIter at hi
      split at hi
      · have heq := Option.some_inj.mp hi
        rw [← heq]
        exact ⟨hcl, rfl⟩
      · cases hi
    | none =>
      rw [hi] at h
      rcases hg : grow s (setterGrowSize s.arena.size need) with ⟨s2, oe⟩
      rw [hg] at h
      cases oe with
      | some e => simp at h
      | none =>
        have hwo := grow_ok_writeonly hg
        obtain ⟨-, -, hcl2, -, -, -, htab, -, -⟩ := grow_ok_fields hwo hg
        have hrec := ih s2 k v need s1 hcl2 h
        exact ⟨hrec.1, by rw [hrec.2, htab]⟩

end MmapObject

namespace MmapObject

/-! Claim theorems. -/

/-- Claim C1 counterexample: a read-write session is write-capable, yet
allocator exhaustion during set is surfaced to the caller as the
resize-requires-write-only error, not as the capacity error, and no
retry happens. -/
theorem c1_counterexample :
    specWriteCapable sOpenRW.readonly sOpenRW.writeonly = true ∧
    propSetter h0 1 sOpenRW "a" (JSValue.num 1) =
      some (sOpenRW, some EngineError.growModeError) ∧
    EngineError.growModeError ≠ EngineError.capacityError :=
  ⟨rfl, rfl, by decide⟩

/-- Claim C1 (amended): for write-only sessions, allocator exhaustion
inside a set is never surfaced: the operation grows and retries
transparently, the only observable exhaustion-related failure is the
capacity error when growth would pass max_file_size, and with enough
fuel the retry loop always produces a result.  For read-write sessions,
exhaustion instead surfaces as the resize-requires-write-only error. -/
theorem c1_theorem (hash : String → Nat) (fuel : Nat) (s : Session)
    (k : String) (v : JSValue) (hwo : s.writeonly = true)
    (hro : s.readonly = false) (hcl : s.closed = false)
    (hv : v ≠ JSValue.other) :
    (∀ (s1 : Session) (e : EngineError),
      propSetter hash fuel s k v = some (s1, some e) →
      e = EngineError.capacityError) ∧
    (1 + (s.maxFileSize + 1 - s.arena.size) ≤ fuel →
      propSetter hash fuel s k v ≠ none) := by
  obtain ⟨need, hd⟩ : ∃ need, dataLength v = some need := by
    cases v with
    | str t => exact ⟨_, rfl⟩
    | num n => exact ⟨_, rfl⟩
    | other => exact absurd rfl hv
  have hred : propSetter hash fuel s k v = setLoop hash fuel s k v need := by
    simp [propSetter, hro, hcl, hd]
  rw [hred]
  exact ⟨fun s1 e h => setLoop_err hash fuel s k v need s1 e hwo h,
    fun hf => setLoop_total hash fuel s k v need hwo hf⟩

/-- Claim C1 witness: the concrete exhausted write-only session with a
300-byte ceiling fails its set with exactly the capacity error, and its
retry loop produces a result within the fuel bound. -/
theorem c1_witness :
    propSetter h0 102 sOpenWO "a" (JSValue.num 1) =
      some (sOpenWO, some EngineError.capacityError) ∧
    EngineError.capacityError = EngineError.capacityError ∧
    propSetter h0 102 sOpenWO "a" (JSValue.num 1) ≠ none := by
  have h := c1_theorem h0 102 sOpenWO "a" (JSValue.num 1) rfl rfl rfl (by decide)
  exact ⟨rfl, h.1 sOpenWO EngineError.capacityError rfl, h.2 (by decide)⟩

/-- Claim C2 (confirmed): for a write-only session, grow computes the
new file size as current size plus max(extra, 100); it fails with the
capacity error exactly when that new size would pass max_file_size, the
failure leaves the session in its prior state, success adopts exactly
the computed size, and in either case the stored table is intact. -/
theorem c2_theorem (s : Session) (extra : Nat) (hwo : s.writeonly = true) :
    ((grow s extra).2 = some EngineError.capacityError ↔
      s.maxFileSize < s.arena.size + max extra 100) ∧
    ((grow s extra).2 = some EngineError.capacityError → (grow s extra).1 = s) ∧
    ((grow s extra).2 = none →
      (grow s extra).1.arena.size = s.arena.size + max extra 100) ∧
    (grow s extra).1.arena.table = s.arena.table := by
  have hm : (if extra < 100 then 100 else extra) = max extra 100 := by
    split <;> omega
  rcases grow_spec s extra hwo with ⟨hc, heq⟩ | ⟨hc, heq⟩ <;>
    rw [hm] at hc <;> rw [heq] <;> simp
  · exact hc
  · omega

/-- Claim C2 witness: at the concrete exhausted write-only session, a
200-byte growth request passes the 300-byte ceiling, fails with the
capacity error and leaves the session untouched. -/
theorem c2_witness :
    sOpenWO.writeonly = true ∧
    (grow sOpenWO 200).2 = some EngineError.capacityError ∧
    (grow sOpenWO 200).1 = sOpenWO := by
  have h := c2_theorem sOpenWO 200 rfl
  exact ⟨rfl, h.1.mpr (by decide), h.2.1 (h.1.mpr (by decide))⟩

/-- Claim C3 counterexample: outside an explicit exclusive section, the
setter reaches grow holding the global lock only in shared mode, never
exclusively, contradicting the claim that every grow runs under the
exclusively held global lock. -/
theorem c3_counterexample :
    (locksDuringGrow false 0).global = LockMode.shared ∧
    (locksDuringGrow false 0).global ≠ LockMode.exclusive := by
  exact ⟨by decide, by decide⟩

/-- Claim C3 (amended): during a grow triggered by the setter, the
global lock is held in shared mode, exclusively only inside an explicit
writeLock section; outside such a section the key's shard lock is held
exclusively.  The global lock is thus always held in some mode, but not
exclusively in ordinary operation. -/
theorem c3_theorem (b : Bool) (h : Fin 64) :
    (locksDuringGrow b h).global =
      (if b then LockMode.exclusive else LockMode.shared) ∧
    (locksDuringGrow b h).shard h =
      (if b then LockMode.idle else LockMode.exclusive) ∧
    (locksDuringGrow b h).global ≠ LockMode.idle := by
  cases b <;>
    simp [locksDuringGrow, heldAfter, setterLockOps, sessionBaseLocks,
      applyLockOp, noLocks, Function.update_same]

/-- Claim C4 counterexample: enumerating a closed session does not fail
with a closed error; it silently returns the ordinary empty result. -/
theorem c4_counterexample :
    sClosed.closed = true ∧ propEnumerator sClosed = Except.ok [] :=
  ⟨rfl, rfl⟩

/-- Claim C4 (amended): on a closed session, get of any key other than
prototype, set, and delete all fail with the respective closed error,
but enumerate silently returns the empty key list instead of failing. -/
theorem c4_theorem (hash : String → Nat) (fuel : Nat) (s : Session)
    (k : String) (v : JSValue) (hc : s.closed = true) :
    (k ≠ "prototype" → propGetter hash s k = Except.error EngineError.closedRead) ∧
    (s.readonly = false →
      propSetter hash fuel s k v = some (s, some EngineError.closedWrite)) ∧
    (s.readonly = false →
      propDeleter hash s k = (s, some EngineError.closedDelete)) ∧
    propEnumerator s = Except.ok [] := by
  refine ⟨fun hp => ?_, fun hro => ?_, fun hro => ?_, ?_⟩
  · simp [propGetter, hc, hp]
  · simp [propSetter, hro, hc]
  · simp [propDeleter, hro, hc]
  · simp [propEnumerator, hc]

/-- Claim C4 witness: at the concrete closed session, get, set and
delete fail with the closed errors and enumerate returns the empty
list. -/
theorem c4_witness :
    propGetter h0 sClosed "a" = Except.error EngineError.closedRead ∧
    propSetter h0 0 sClosed "a" (JSValue.num 1) =
      some (sClosed, some EngineError.closedWrite) ∧
    propDeleter h0 sClosed "a" = (sClosed, some EngineError.closedDelete) ∧
    propEnumerator sClosed = Except.ok [] := by
  have h := c4_theorem h0 0 sClosed "a" (JSValue.num 1) rfl
  exact ⟨h.1 (by decide), h.2.1 rfl, h.2.2.1 rfl, h.2.2.2⟩

/-- Claim C6 counterexample: with a 10-byte arena and a 30-byte failed
request, the setter requests 30 bytes of growth, not the 60 bytes the
claimed formula max(current, request) * 2 demands. -/
theorem c6_counterexample :
    setterGrowSize 10 30 = 30 ∧ specGrowSize 10 30 = 60 ∧
    setterGrowSize 10 30 ≠ specGrowSize 10 30 := by decide

/-- Claim C6 (amended): the growth size requested on allocator
exhaustion is twice the current arena size, or the failed request size
itself if that is larger; after a successful grow the same set call is
retried with the same key and value. -/
theorem c6_theorem (hash : String → Nat) (fuel : Nat) (s s1 : Session)
    (k : String) (v : JSValue) (need : Nat) :
    setterGrowSize s.arena.size need = max (s.arena.size * 2) need ∧
    (setIter hash s k v need = none →
      grow s (setterGrowSize s.arena.size need) = (s1, none) →
      setLoop hash (fuel + 1) s k v need = setLoop hash fuel s1 k v need) := by
  constructor
  · unfold setterGrowSize; split <;> omega
  · intro hi hg
    simp only [setLoop, hi, hg]

/-- Claim C6 witness: at the concrete exhausted write-only session of
size 200 with a 24-byte request, the requested growth is 400 bytes and
the loop retries the same key and value on the grown session. -/
theorem c6_witness :
    setterGrowSize sBigWO.arena.size 24 = max (sBigWO.arena.size * 2) 24 ∧
    setLoop h0 2 sBigWO "a" (JSValue.num 1) 24 =
      setLoop h0 1 sBigWOGrown "a" (JSValue.num 1) 24 := by
  have h := c6_theorem h0 1 sBigWO sBigWOGrown "a" (JSValue.num 1) 24
  exact ⟨h.1, h.2 rfl rfl⟩

/-- Claim C9 counterexample: a read-write session is write-capable in
the spec's sense, yet its close trace performs no shrink. -/
theorem c9_counterexample :
    specWriteCapable false false = true ∧
    CloseEvent.shrinkToFit ∉ closeWorkerTrace false :=
  ⟨rfl, by decide⟩

/-- Claim C5 counterexample: storing the key prototype succeeds, yet
the immediately following get reports the key as absent instead of
returning the stored value, so the round trip fails for that key. -/
theorem c5_counterexample :
    sRoomy.readonly = false ∧ sRoomy.closed = false ∧
    propSetter h0 1 sRoomy "prototype" (JSValue.str "x") =
      some (sProto, none) ∧
    propGetter h0 sProto "prototype" = Except.ok none ∧
    (none : Option Cell) ≠ some (toCell (JSValue.str "x")) :=
  ⟨rfl, rfl, rfl, rfl, by decide⟩

/-- Claim C5 (amended): for every key other than prototype, a
successful set followed by a get returns exactly the value just stored,
including when the key previously held a value of the other type, since
set replaces the old cell. -/
theorem c5_theorem (hash : String → Nat) (fuel : Nat) (s s1 : Session)
    (k : String) (v : JSValue) (hp : k ≠ "prototype")
    (hok : propSetter hash fuel s k v = some (s1, none)) :
    propGetter hash s1 k = Except.ok (some (toCell v)) := by
  unfold propSetter at hok
  split at hok
  · simp at hok
  · split at hok
    · simp at hok
    · next hro hcl =>
      rw [Bool.not_eq_true] at hcl
      rcases hd : dataLength v with - | need
      · rw [hd] at hok; simp at hok
      · rw [hd] at hok
        obtain ⟨hcl1, htab⟩ := setLoop_ok hash fuel s k v need s1 hcl hok
        have hbeq : (k == "prototype") = false := by
          simp [hp]
        unfold propGetter
        rw [hbeq]
        simp [hcl1, htab, tableSet, Function.update_same, shardFind_shardSet]

/-- Claim C5 witness: starting from a session whose key a holds a
number, overwriting it with the string x and reading it back returns
that string. -/
theorem c5_witness :
    ("a" : String) ≠ "prototype" ∧
    propSetter h0 1 sNum "a" (JSValue.str "x") = some (sNumAfter, none) ∧
    propGetter h0 sNumAfter "a" = Except.ok (some (Cell.stringValue "x")) := by
  refine ⟨by decide, rfl, ?_⟩
  exact c5_theorem h0 1 sNum sNumAfter "a" (JSValue.str "x") (by decide) rfl

/-- Claim C8 counterexample: on an open writable session whose arena is
full, deleting an absent key that is too long for the string's inline
buffer fails: the deleter's unprotected key construction cannot
allocate, and the bad_alloc escapes uncaught. -/
theorem c8_counterexample :
    sOpenRW.readonly = false ∧ sOpenRW.closed = false ∧
    shardContains longKey (sOpenRW.arena.table (shardIndex h0 longKey)) =
      false ∧
    propDeleter h0 sOpenRW longKey =
      (sOpenRW, some EngineError.uncaughtBadAlloc) :=
  ⟨rfl, rfl, by decide, rfl⟩

/-- Claim C8 (amended): on an open writable session with arena room for
the deleter's transient key construction (no room is needed for a key
fitting the string's inline buffer, which allocates nothing), delete of
an absent key leaves the map unchanged and does not fail, two
consecutive deletes of the same key both succeed, and for an
inline-buffer key the absent-key delete is entirely a no-op; without
that room, a key longer than the inline buffer makes delete fail with
an uncaught bad_alloc. -/
theorem c8_theorem (hash : String → Nat) (s : Session) (k : String)
    (hro : s.readonly = false) (hcl : s.closed = false)
    (hfit : s.arena.used + 2 * keyAllocDemand k ≤ s.arena.size) :
    (propDeleter hash s k).2 = none ∧
    (propDeleter hash (propDeleter hash s k).1 k).2 = none ∧
    (shardContains k (s.arena.table (shardIndex hash k)) = false →
      (propDeleter hash s k).1.arena.table = s.arena.table) ∧
    (keyAllocDemand k = 0 →
      shardContains k (s.arena.table (shardIndex hash k)) = false →
      propDeleter hash s k = (s, none)) := by
  have hd1 := propDeleter_ok hash s k hro hcl (by omega)
  have hd2 := propDeleter_ok hash ({ s with arena := { s.arena with
      used := s.arena.used + keyAllocDemand k
      table := tableErase hash s.arena.table k } }) k hro hcl
    (by dsimp only; omega)
  refine ⟨by rw [hd1], ?_, fun habs => ?_, fun hd habs => ?_⟩
  · simp only [hd1, hd2]
  · simp only [hd1]
    exact tableErase_absent hash s.arena.table k habs
  · rw [hd1, tableErase_absent hash s.arena.table k habs, hd]
    rfl

/-- Claim C8 witness: on the concrete roomy session, deleting the long
absent key succeeds twice without touching the table, and deleting the
short absent key zz is entirely a no-op. -/
theorem c8_witness :
    (propDeleter h0 sRoomy longKey).2 = none ∧
    (propDeleter h0 (propDeleter h0 sRoomy longKey).1 longKey).2 = none ∧
    (propDeleter h0 sRoomy longKey).1.arena.table = sRoomy.arena.table ∧
    propDeleter h0 sRoomy "zz" = (sRoomy, none) := by
  have h1 := c8_theorem h0 sRoomy longKey rfl rfl (by decide)
  have h2 := c8_theorem h0 sRoomy "zz" rfl rfl (by decide)
  exact ⟨h1.1, h1.2.1, h1.2.2.1 (by decide),
    h2.2.2.2 (by decide) (by decide)⟩

/-- Claim C10 (confirmed): get answers the key prototype as absent on
every session, including right after a successful set of that key,
while set stores the key normally and delete accepts it without
error. -/
theorem c10_theorem :
    (∀ (hash : String → Nat) (s : Session),
      propGetter hash s "prototype" = Except.ok none) ∧
    (∀ (hash : String → Nat) (s : Session) (v : JSValue) (need : Nat),
      s.readonly = false → s.closed = false → dataLength v = some need →
      s.arena.used + need ≤ s.arena.size →
      ∃ s1 : Session, propSetter hash 1 s "prototype" v = some (s1, none) ∧
        shardContains "prototype"
          (s1.arena.table (shardIndex hash "prototype")) = true) ∧
    (∀ (hash : String → Nat) (s : Session), s.readonly = false →
      s.closed = false → (propDeleter hash s "prototype").2 = none) := by
  refine ⟨fun hash s => rfl, fun hash s v need hro hcl hd hfit => ?_,
    fun hash s hro hcl => by
      have hdp : keyAllocDemand "prototype" = 0 := by decide
      simp [propDeleter, hro, hcl, hdp]⟩
  refine ⟨{ s with arena := { s.arena with
      used := s.arena.used + need
      table := tableSet hash s.arena.table "prototype" (toCell v) } }, ?_, ?_⟩
  · simp [propSetter, hro, hcl, hd, setLoop, setIter, hfit]
  · simp [tableSet, Function.update_same, shardContains_shardSet]

/-- Claim C10 witness: at concrete sessions, get of prototype is absent
even on the post-set state, set of prototype succeeds and stores the
key, and delete of prototype succeeds. -/
theorem c10_witness :
    propGetter h0 sProto "prototype" = Except.ok none ∧
    (∃ s1 : Session,
      propSetter h0 1 sRoomy "prototype" (JSValue.num 2) = some (s1, none) ∧
      shardContains "prototype"
        (s1.arena.table (shardIndex h0 "prototype")) = true) ∧
    (propDeleter h0 sRoomy "prototype").2 = none :=
  ⟨c10_theorem.1 h0 sProto,
   c10_theorem.2.1 h0 sRoomy (JSValue.num 2) 24 rfl rfl rfl (by decide),
   c10_theorem.2.2 h0 sRoomy rfl rfl⟩

/-- Claim C9 (amended): close always flushes before unmapping, and
shrinks the backing file exactly when the session mode is write-only;
closing a read-write or read-only session performs no shrink. -/
theorem c9_theorem (wo : Bool) :
    (CloseEvent.shrinkToFit ∈ closeWorkerTrace wo ↔ wo = true) ∧
    ∃ i j : Nat, i < j ∧ (closeWorkerTrace wo)[i]? = some CloseEvent.flush ∧
      (closeWorkerTrace wo)[j]? = some CloseEvent.unmap := by
  cases wo
  · exact ⟨by decide, 0, 1, by decide, by decide, by decide⟩
  · exact ⟨by decide, 1, 2, by decide, by decide, by decide⟩

/-! Sharding and enumeration invariants for claim C7. -/

/-- A sum of mapped zeros is zero. -/
theorem sum_map_zero {α : Type} (l : List α) (g : α → Nat)
    (h : ∀ i ∈ l, g i = 0) : (l.map g).sum = 0 := by
  induction l with
  | nil => rfl
  | cons a l ih =>
    simp [h a (by simp), ih (fun i hi => h i (by simp [hi]))]

/-- Summing a map that vanishes away from one index of a
duplicate-free list yields the value at that index. -/
theorem sum_map_single {α : Type} (l : List α) (g : α → Nat) (j : α)
    (hn : l.Nodup) (hj : j ∈ l) (h0 : ∀ i, i ≠ j → g i = 0) :
    (l.map g).sum = g j := by
  induction l with
  | nil => cases hj
  | cons a l ih =>
    rcases List.mem_cons.mp hj with rfl | hj2
    · have hz : ∀ i ∈ l, g i = 0 := fun i hi =>
        h0 i (fun he => (List.nodup_cons.mp hn).1 (he ▸ hi))
      simp [sum_map_zero l g hz]
    · have ha : g a = 0 :=
        h0 a (fun he => (List.nodup_cons.mp hn).1 (he ▸ hj2))
      simp [ha, ih (List.nodup_cons.mp hn).2 hj2]

/-- A positive shard membership test yields an entry with that key. -/
theorem shardContains_exists {k : String} {sh : Shard}
    (h : shardContains k sh = true) : ∃ p ∈ sh, p.1 = k := by
  unfold shardContains at h
  rw [List.any_eq_true] at h
  obtain ⟨p, hp, hpk⟩ := h
  exact ⟨p, hp, by simpa using hpk⟩

/-- Entries of a shard after a set come from the old shard or are the
new pair. -/
theorem mem_shardSet {p : String × Cell} {k : String} {c : Cell}
    {sh : Shard} (h : p ∈ shardSet k c sh) : p ∈ sh ∨ p = (k, c) := by
  unfold shardSet at h
  split at h <;> rcases List.mem_append.mp h with h1 | h1
  · exact Or.inl (List.mem_filter.mp h1).1
  · exact Or.inr (List.mem_singleton.mp h1)
  · exact Or.inl h1
  · exact Or.inr (List.mem_singleton.mp h1)

/-- Entries survive an erase only if they were already present. -/
theorem mem_shardErase {p : String × Cell} {k : String} {sh : Shard}
    (h : p ∈ shardErase k sh) : p ∈ sh :=
  (List.mem_filter.mp h).1

/-- The erased key does not occur among the remaining keys. -/
theorem not_mem_keys_shardErase (k : String) (sh : Shard) :
    k ∉ (shardErase k sh).map Prod.fst := by
  intro h
  obtain ⟨p, hp, hpk⟩ := List.mem_map.mp h
  have hne := (List.mem_filter.mp hp).2
  simp [hpk] at hne

/-- Erasing preserves duplicate-freedom of the keys. -/
theorem nodupKeys_shardErase {k : String} {sh : Shard}
    (h : (sh.map Prod.fst).Nodup) :
    ((shardErase k sh).map Prod.fst).Nodup :=
  ((List.filter_sublist sh).map Prod.fst).nodup h

/-- Setting preserves duplicate-freedom of the keys. -/
theorem nodupKeys_shardSet {k : String} {c : Cell} {sh : Shard}
    (h : (sh.map Prod.fst).Nodup) :
    ((shardSet k c sh).map Prod.fst).Nodup := by
  unfold shardSet
  split
  · rw [List.map_append, List.nodup_append]
    refine ⟨nodupKeys_shardErase h, List.nodup_singleton k, ?_⟩
    intro a ha hb
    rw [List.map_singleton, List.mem_singleton] at hb
    rw [hb] at ha
    exact not_mem_keys_shardErase k sh ha
  · next hcon =>
    rw [Bool.not_eq_true] at hcon
    rw [List.map_append, List.nodup_append]
    refine ⟨h, List.nodup_singleton k, ?_⟩
    intro a ha hb
    rw [List.map_singleton, List.mem_singleton] at hb
    subst hb
    obtain ⟨p, hp, hpk⟩ := List.mem_map.mp ha
    exact (shardContains_eq_false_iff.mp hcon p hp) hpk

/-- The fresh table is well placed. -/
theorem wellPlaced_empty (hash : String → Nat) : WellPlaced hash emptyTable := by
  intro i p hp
  simp [emptyTable] at hp

/-- The fresh table has duplicate-free keys. -/
theorem nodupKeys_empty : NodupKeys emptyTable := by
  intro i
  simp [emptyTable]

/-- tableSet preserves placement. -/
theorem wellPlaced_tableSet (hash : String → Nat) (t : Table) (k : String)
    (c : Cell) (h : WellPlaced hash t) :
    WellPlaced hash (tableSet hash t k c) := by
  intro i p hp
  unfold tableSet at hp
  by_cases hik : i = shardIndex hash k
  · subst hik
    rw [Function.update_same] at hp
    rcases mem_shardSet hp with h1 | h1
    · exact h _ p h1
    · subst h1
      rfl
  · rw [Function.update_noteq hik] at hp
    exact h i p hp

/-- tableErase preserves placement. -/
theorem wellPlaced_tableErase (hash : String → Nat) (t : Table) (k : String)
    (h : WellPlaced hash t) : WellPlaced hash (tableErase hash t k) := by
  intro i p hp
  unfold tableErase at hp
  by_cases hik : i = shardIndex hash k
  · subst hik
    rw [Function.update_same] at hp
    exact h _ p (mem_shardErase hp)
  · rw [Function.update_noteq hik] at hp
    exact h i p hp

/-- tableSet preserves duplicate-free keys. -/
theorem nodupKeys_tableSet (hash : String → Nat) (t : Table) (k : String)
    (c : Cell) (h : NodupKeys t) : NodupKeys (tableSet hash t k c) := by
  intro i
  unfold tableSet
  by_cases hik : i = shardIndex hash k
  · subst hik
    rw [Function.update_same]
    exact nodupKeys_shardSet (h _)
  · rw [Function.update_noteq hik]
    exact h i

/-- tableErase preserves duplicate-free keys. -/
theorem nodupKeys_tableErase (hash : String → Nat) (t : Table) (k : String)
    (h : NodupKeys t) : NodupKeys (tableErase hash t k) := by
  intro i
  unfold tableErase
  by_cases hik : i = shardIndex hash k
  · subst hik
    rw [Function.update_same]
    exact nodupKeys_shardErase (h _)
  · rw [Function.update_noteq hik]
    exact h i

/-- Both invariants hold on every table the engine can reach. -/
theorem reachable_inv {hash : String → Nat} {t : Table}
    (h : Reachable hash t) : WellPlaced hash t ∧ NodupKeys t := by
  induction h with
  | empty => exact ⟨wellPlaced_empty hash, nodupKeys_empty⟩
  | set hr ih =>
    exact ⟨wellPlaced_tableSet _ _ _ _ ih.1, nodupKeys_tableSet _ _ _ _ ih.2⟩
  | erase hr ih =>
    exact ⟨wellPlaced_tableErase _ _ _ ih.1, nodupKeys_tableErase _ _ _ ih.2⟩

/-- A shard holding no entry for a key counts it zero times. -/
theorem count_keys_eq_zero {k : String} {sh : Shard}
    (h : ∀ p ∈ sh, p.1 ≠ k) : (sh.map Prod.fst).count k = 0 := by
  rw [List.count_eq_zero]
  intro hk
  obtain ⟨p, hp, hpk⟩ := List.mem_map.mp hk
  exact h p hp hpk

/-- On a well-placed table, the enumerator counts a key exactly as the
key's own shard counts it: every other shard contributes nothing. -/
theorem count_enumerate (hash : String → Nat) (t : Table)
    (hwp : WellPlaced hash t) (k : String) :
    (enumerateTable t).count k =
      ((t (shardIndex hash k)).map Prod.fst).count k := by
  unfold enumerateTable
  rw [List.count_flatMap]
  apply sum_map_single _ _ (shardIndex hash k) (List.nodup_finRange 64)
    (List.mem_finRange _)
  intro i hi
  show ((t i).map Prod.fst).count k = 0
  apply count_keys_eq_zero
  intro p hp hpk
  exact hi ((hpk ▸ hwp i p hp).symm)

/-- Claim C7 (confirmed): on every table the engine can reach, each
entry lives in the shard its key hashes to (mod 64), no key occurs in
two shards, and the enumerator, which walks the shards in index order,
lists every live key exactly once and dead keys not at all. -/
theorem c7_theorem (hash : String → Nat) (t : Table)
    (hr : Reachable hash t) :
    (∀ (i : Fin 64) (p : String × Cell), p ∈ t i → shardIndex hash p.1 = i) ∧
    (∀ (k : String) (i j : Fin 64), shardContains k (t i) = true →
      shardContains k (t j) = true → i = j) ∧
    (∀ k : String, shardContains k (t (shardIndex hash k)) = true →
      (enumerateTable t).count k = 1) ∧
    (∀ k : String, (∀ i : Fin 64, shardContains k (t i) = false) →
      (enumerateTable t).count k = 0) := by
  obtain ⟨hwp, hnd⟩ := reachable_inv hr
  refine ⟨hwp, ?_, ?_, ?_⟩
  · intro k i j hi hj
    obtain ⟨p, hp, hpk⟩ := shardContains_exists hi
    obtain ⟨q, hq, hqk⟩ := shardContains_exists hj
    have h1 := hwp i p hp
    have h2 := hwp j q hq
    rw [hpk] at h1
    rw [hqk] at h2
    rw [← h1, ← h2]
  · intro k hk
    rw [count_enumerate hash t hwp k]
    obtain ⟨p, hp, hpk⟩ := shardContains_exists hk
    exact List.count_eq_one_of_mem (hnd _) (List.mem_map.mpr ⟨p, hp, hpk⟩)
  · intro k hk
    rw [count_enumerate hash t hwp k]
    exact count_keys_eq_zero (fun p hp => shardContains_eq_false_iff.mp (hk _) p hp)

/-- Claim C7 witness: the concrete two-key table is reachable, its key
a is live in its shard, and the enumerator lists it exactly once. -/
theorem c7_witness :
    Reachable h0 t1 ∧
    shardContains "a" (t1 (shardIndex h0 "a")) = true ∧
    (enumerateTable t1).count "a" = 1 := by
  have hr : Reachable h0 t1 := Reachable.set (Reachable.set Reachable.empty)
  exact ⟨hr, by decide, (c7_theorem h0 t1 hr).2.2.1 "a" (by decide)⟩

end MmapObject

